import Mathlib

/-!
# Verification of the go-imagewatermark compositing engine

A shallow embedding, in Lean 4, of the watermark-compositing core of the
`go-imagewatermark` package: configuration validation, the watermark
transform pipeline, the single-placement and grid position engines, the
`image/draw`-style source-over compositor, and the single/batch/grid apply
operations.  Theorems below settle the specification claims about this code.

Modelling conventions:
* Go `int` is `Int`; Go integer division (which truncates toward zero) is
  `Int.tdiv`.
* Go `float64` configuration values (opacity, width percent, rotation
  degrees) are modelled as exact rationals `ℚ`; every concrete constant used
  in the claims (0, 1, 100, 360, 1/2, ...) is exactly representable in
  float64, and the float computations the code performs on them
  (`float64(smallInt) * dyadicRational`) are exact, so the rational model
  agrees with the float64 semantics at every input considered here.
* Go conversion `uint8(f)` of a non-negative float truncates toward zero:
  modelled by `ratTrunc` below.
* An `image.Image` value is modelled by its observable behaviour: its
  bounds rectangle and the alpha-premultiplied 16-bit channels that
  `At(x, y).RGBA()` returns (`GoImage`).  Concrete `*image.NRGBA` /
  `*image.RGBA` buffers keep their straight / premultiplied 8-bit pixels
  (`NRGBAImage` / `RGBAImage`); `At` outside the bounds returns the zero
  color, as in Go.
* The external `imaging` library's resize and rotate primitives are opaque
  collaborators (spec §1, §6): they are a parameter `Imaging` of every
  operation that uses them.
* Loops whose progress depends on run-time data (the grid position loops)
  take explicit fuel and return `none` when the fuel is exhausted, so a
  non-terminating Go loop is the function returning `none` at every fuel.
* Goroutine fan-out in the batch operations writes each result to its own
  index and is joined before returning (single.go), so its denotation is an
  indexed map over the inputs; the worker-pool size bounds concurrency only
  and cannot affect the returned values.
-/

/-- An integer pixel coordinate (Go `image.Point`). -/
structure Pt where
  x : Int
  y : Int
deriving DecidableEq, Repr

/-- A rectangle with inclusive min and exclusive max (Go `image.Rectangle`). -/
structure Rect where
  minX : Int
  minY : Int
  maxX : Int
  maxY : Int
deriving DecidableEq, Repr

/-- Go `Rectangle.Dx`. -/
def Rect.dx (r : Rect) : Int := r.maxX - r.minX

/-- Go `Rectangle.Dy`. -/
def Rect.dy (r : Rect) : Int := r.maxY - r.minY

/-- Membership of a point in a rectangle (Go `Point.In`). -/
def Rect.inR (r : Rect) (x y : Int) : Prop :=
  r.minX ≤ x ∧ x < r.maxX ∧ r.minY ≤ y ∧ y < r.maxY

instance (r : Rect) (x y : Int) : Decidable (r.inR x y) := by
  unfold Rect.inR; infer_instance

/-- Go `Rectangle.Intersect`, up to the normalisation of empty rectangles:
Go returns `image.ZR` when the intersection is empty, which contains the
same (empty) set of points as the un-normalised rectangle built here, and
only membership is observed by the drawing loops. -/
def Rect.inter (a b : Rect) : Rect :=
  ⟨max a.minX b.minX, max a.minY b.minY, min a.maxX b.maxX, min a.maxY b.maxY⟩

/-- Go `Rectangle.Add`: translate a rectangle by an offset. -/
def Rect.translate (r : Rect) (dx dy : Int) : Rect :=
  ⟨r.minX + dx, r.minY + dy, r.maxX + dx, r.maxY + dy⟩

/-- The alpha-premultiplied 16-bit channels returned by Go
`color.Color.RGBA()`. -/
structure Col16 where
  r : Nat
  g : Nat
  b : Nat
  a : Nat
deriving DecidableEq, Repr

/-- A straight (un-premultiplied) 8-bit pixel (Go `color.NRGBA`). -/
structure NRGBAPix where
  r : Nat
  g : Nat
  b : Nat
  a : Nat
deriving DecidableEq, Repr

/-- An alpha-premultiplied 8-bit pixel (Go `color.RGBA`). -/
structure RGBAPix where
  r : Nat
  g : Nat
  b : Nat
  a : Nat
deriving DecidableEq, Repr

/-- An abstract Go `image.Image`: bounds plus what `At(x, y).RGBA()`
returns at every coordinate. -/
structure GoImage where
  bounds : Rect
  rgba : Int → Int → Col16

/-- A Go `*image.NRGBA` buffer: straight 8-bit pixels. -/
structure NRGBAImage where
  bounds : Rect
  pix : Int → Int → NRGBAPix

/-- A Go `*image.RGBA` buffer: premultiplied 8-bit pixels. -/
structure RGBAImage where
  bounds : Rect
  pix : Int → Int → RGBAPix

/-- Go `color.NRGBA.RGBA()`: premultiply a straight 8-bit pixel up to
16 bits (`r |= r<<8; r *= a; r /= 0xff`). -/
def NRGBAPix.toCol16 (p : NRGBAPix) : Col16 :=
  ⟨p.r * 257 * p.a / 255, p.g * 257 * p.a / 255, p.b * 257 * p.a / 255, p.a * 257⟩

/-- Go `color.RGBA.RGBA()`: widen a premultiplied 8-bit pixel to 16 bits. -/
def RGBAPix.toCol16 (p : RGBAPix) : Col16 :=
  ⟨p.r * 257, p.g * 257, p.b * 257, p.a * 257⟩

/-- View an `*image.NRGBA` buffer through the `image.Image` interface. -/
def NRGBAImage.toGo (img : NRGBAImage) : GoImage :=
  ⟨img.bounds, fun x y => (img.pix x y).toCol16⟩

/-- Go conversion `int(f)` / `uint8(f)` of a float value, which truncates
toward zero, applied to an exact rational: `Int.tdiv` of numerator by
denominator truncates toward zero. -/
def ratTrunc (q : ℚ) : Int := Int.tdiv q.num (q.den : Int)

/-! ## Configuration (config source, current revision) -/

/-- `VerticalAlign` / `HorizontalAlign` constants (iota `int`s). -/
def VerticalTop : Int := 0

def VerticalMiddle : Int := 1

def VerticalBottom : Int := 2

def VerticalRandom : Int := 3

def HorizontalLeft : Int := 0

def HorizontalMiddle : Int := 1

def HorizontalRight : Int := 2

def HorizontalRandom : Int := 3

/-- An `imaging.ResampleFilter`: only its `Support` field is inspected by
this package (the kernel itself is part of the opaque resize primitive). -/
structure ResampleFilter where
  support : ℚ

/-- `imaging.CatmullRom` (Support = 2.0). -/
def CatmullRom : ResampleFilter := ⟨2⟩

/-- `GeneralConfig`: common settings of all watermarking operations. -/
structure GeneralConfig where
  opacityAlpha : ℚ
  watermarkWidthPercent : ℚ
  rotationDegrees : ℚ
  resampleFilter : ResampleFilter
  maxWorkers : Int

/-- Which validation check failed: stands for the distinct error value
(`fmt.Errorf` message naming the offending field) the Go code returns. -/
inductive ConfigError where
  | opacity
  | widthPercent
  | rotationDeg
  | maxWorkers
  | spacing
deriving DecidableEq, Repr

/-- `GeneralConfig.validate`: fail-fast range checks, in source order. -/
def GeneralConfig.validate (c : GeneralConfig) : Option ConfigError :=
  if c.opacityAlpha ≤ 0 ∨ 1 < c.opacityAlpha then some .opacity
  else if c.watermarkWidthPercent ≤ 0 ∨ 100 < c.watermarkWidthPercent then some .widthPercent
  else if c.rotationDegrees < 0 ∨ 360 < c.rotationDegrees then some .rotationDeg
  else if c.maxWorkers < 0 then some .maxWorkers
  else none

/-- `SingleConfig`: general settings plus alignment and spacing. -/
structure SingleConfig where
  general : GeneralConfig
  verticalAlign : Int
  horizontalAlign : Int
  spacing : Int

/-- `SingleConfig.validate`: delegate to the general validation, then check
the spacing. -/
def SingleConfig.validate (c : SingleConfig) : Option ConfigError :=
  match c.general.validate with
  | some e => some e
  | none => if c.spacing < 0 then some .spacing else none

/-- `GridConfig`: general settings plus grid spacings and offsets. -/
structure GridConfig where
  general : GeneralConfig
  gridSpacingX : Int
  gridSpacingY : Int
  offsetX : Int
  offsetY : Int

/-- `GridConfig.validate`: only the embedded general configuration is
checked; spacings and offsets are unconstrained. -/
def GridConfig.validate (c : GridConfig) : Option ConfigError :=
  c.general.validate

/-! ## Transform pipeline (utils source, current revision) -/

/-- `getNewWatermarkWidth`: `int(float64(width) * (percent / 100))`. -/
def getNewWatermarkWidth (originalImage : GoImage) (watermarkWidthPercentage : ℚ) : Int :=
  ratTrunc ((originalImage.bounds.dx : ℚ) * (watermarkWidthPercentage / 100))

/-- `applyOpacity`: for every pixel of the input image, read the
premultiplied `RGBA()` channels, keep the high bytes of r/g/b, and set the
alpha to `uint8(float64(a>>8) * opacityAlpha)`; the result is a fresh
`*image.NRGBA` (zero outside its bounds, as `Set` ignores out-of-bounds
writes and `At` outside the bounds returns the zero color). -/
def applyOpacity (img : GoImage) (opacityAlpha : ℚ) : NRGBAImage :=
  ⟨img.bounds, fun x y =>
    if img.bounds.inR x y then
      let c := img.rgba x y
      ⟨c.r >>> 8, c.g >>> 8, c.b >>> 8, (ratTrunc (((c.a >>> 8 : Nat) : ℚ) * opacityAlpha)).toNat⟩
    else ⟨0, 0, 0, 0⟩⟩

/-- The opaque resize/rotate primitives of the `imaging` library (spec §6):
`resize img targetWidth filter` resizes preserving aspect ratio, `rotate
img degrees` rotates about the center filling with transparency.  They are
external collaborators of the core, so every operation takes them as a
parameter. -/
structure Imaging where
  resize : GoImage → Int → ResampleFilter → GoImage
  rotate : GoImage → ℚ → GoImage

/-- `rotateImage`: `imaging.Rotate(img, degrees, image.Transparent)`. -/
def rotateImage (I : Imaging) (img : GoImage) (rotationDegrees : ℚ) : GoImage :=
  I.rotate img rotationDegrees

/-- `resizeWatermark`: resize the watermark to the configured percentage of
the base image width, defaulting the filter to CatmullRom when the
configured filter has non-positive support. -/
def resizeWatermark (I : Imaging) (watermarkImg baseImage : GoImage) (config : GeneralConfig) : GoImage :=
  let watermarkWidth := getNewWatermarkWidth baseImage config.watermarkWidthPercent
  let resampleFilter := if config.resampleFilter.support ≤ 0 then CatmullRom else config.resampleFilter
  I.resize watermarkImg watermarkWidth resampleFilter

/-- The opacity-then-rotation preparation block repeated verbatim at the
top of `ApplySingle`, `BatchApplySingle`, `ApplyGrid` and `BatchApplyGrid`
in the current sources: apply opacity when `OpacityAlpha < 1`, then rotate
when `RotationDegrees != 0`. -/
def prepareOpacityRotation (I : Imaging) (watermarkImg : GoImage) (config : GeneralConfig) : GoImage :=
  let preparedWM := if config.opacityAlpha < 1 then (applyOpacity watermarkImg config.opacityAlpha).toGo else watermarkImg
  if config.rotationDegrees ≠ 0 then rotateImage I preparedWM config.rotationDegrees else preparedWM

/-- The full prepared watermark of the current single/grid pipeline:
opacity, then rotation, then resize against the base image. -/
def singlePreparedWatermark (I : Imaging) (inputImg watermarkImg : GoImage) (config : GeneralConfig) : GoImage :=
  resizeWatermark I (prepareOpacityRotation I watermarkImg config) inputImg config

/-- `preprocessWatermark` (utils source, earlier revision, still present in
the repository): resize first, then rotate, then opacity. -/
def preprocessWatermark (I : Imaging) (originalImage watermarkImage : GoImage) (config : GeneralConfig) : GoImage :=
  let watermarkWidth := getNewWatermarkWidth originalImage config.watermarkWidthPercent
  let resampleFilter := if config.resampleFilter.support ≤ 0 then CatmullRom else config.resampleFilter
  let resized := I.resize watermarkImage watermarkWidth resampleFilter
  let rotated := if config.rotationDegrees ≠ 0 then I.rotate resized config.rotationDegrees else resized
  if config.opacityAlpha < 1 then (applyOpacity rotated config.opacityAlpha).toGo else rotated

/-! ## Position engine (utils source, current revision) -/

/-- `getWatermarkPosition(watermarkImage, inputImage, verticalAlign,
horizontalAlign, spacing)`: per-axis switch on the alignment constants with
fallback to Middle.  `sampler n` models `rand.Intn(n)`, the process-wide
generator draw, which returns a value in `[0, n)`. -/
def getWatermarkPosition (watermarkImage inputImage : GoImage) (verticalAlign horizontalAlign : Int)
    (spacing : Int) (sampler : Nat → Nat) : Pt :=
  let inW := inputImage.bounds.dx
  let inH := inputImage.bounds.dy
  let wmW := watermarkImage.bounds.dx
  let wmH := watermarkImage.bounds.dy
  let px : Int :=
    if horizontalAlign = HorizontalLeft then spacing
    else if horizontalAlign = HorizontalMiddle then Int.tdiv (inW - wmW) 2
    else if horizontalAlign = HorizontalRight then inW - wmW - spacing
    else if horizontalAlign = HorizontalRandom then
      let minX := spacing
      let maxX := inW - wmW - spacing
      if maxX > minX then ((sampler (maxX - minX + 1).toNat : Nat) : Int) + minX else minX
    else Int.tdiv (inW - wmW) 2
  let py : Int :=
    if verticalAlign = VerticalTop then spacing
    else if verticalAlign = VerticalMiddle then Int.tdiv (inH - wmH) 2
    else if verticalAlign = VerticalBottom then inH - wmH - spacing
    else if verticalAlign = VerticalRandom then
      let minY := spacing
      let maxY := inH - wmH - spacing
      if maxY > minY then ((sampler (maxY - minY + 1).toNat : Nat) : Int) + minY else minY
    else Int.tdiv (inH - wmH) 2
  ⟨px, py⟩

/-- The inner `for x := offsetX; x < inputW; x += stepX` loop of
`generateGridPositions`, with explicit fuel: one unit per executed
iteration; `none` means the Go loop has not terminated within the fuel. -/
def gridLoopX (bound step : Int) : Nat → Int → Option (List Int)
  | 0, x => if x < bound then none else some []
  | fuel + 1, x =>
    if x < bound then (gridLoopX bound step fuel (x + step)).map (fun l => x :: l)
    else some []

/-- The outer `for y := offsetY; y < inputH; y += stepY` loop of
`generateGridPositions`: each iteration runs the whole inner loop and
appends that row's points. -/
def gridLoopY (boundX stepX offsetX boundY stepY : Int) (fuelX : Nat) : Nat → Int → Option (List Pt)
  | 0, y => if y < boundY then none else some []
  | fuel + 1, y =>
    if y < boundY then
      (gridLoopX boundX stepX fuelX offsetX).bind (fun xs =>
        (gridLoopY boundX stepX offsetX boundY stepY fuelX fuel (y + stepY)).map
          (fun rest => xs.map (fun x => ⟨x, y⟩) ++ rest))
    else some []

/-- `generateGridPositions` (grid source, current revision): off-canvas
offsets short-circuit to the empty list; a non-positive predicted point
count short-circuits to the empty list; otherwise the row-major nested
loops run.  `Int.tdiv` is total where Go's integer division panics on a
zero step; no claim below depends on a zero step. -/
def generateGridPositions (inputImg watermarkImg : GoImage) (config : GridConfig) (fuel : Nat) : Option (List Pt) :=
  let inputW := inputImg.bounds.dx
  let inputH := inputImg.bounds.dy
  let wmW := watermarkImg.bounds.dx
  let wmH := watermarkImg.bounds.dy
  if inputW ≤ config.offsetX ∨ inputH ≤ config.offsetY then some []
  else
    let stepX := wmW + config.gridSpacingX
    let stepY := wmH + config.gridSpacingY
    let countX := Int.tdiv (inputW - config.offsetX + stepX - 1) stepX
    let countY := Int.tdiv (inputH - config.offsetY + stepY - 1) stepY
    if countX * countY ≤ 0 then some []
    else gridLoopY inputW stepX config.offsetX inputH stepY fuel fuel config.offsetY

/-! ## Compositor (utils source, current revision; Go `image/draw`) -/

/-- The source-over blend Go's `drawRGBA` / `drawNRGBAOver` performs for
one pixel of an `*image.RGBA` destination: 16-bit premultiplied source
channels against 8-bit premultiplied destination channels, with the final
`uint8(... >> 8)` conversion truncating to the low byte. -/
def overBlend (s : Col16) (d : RGBAPix) : RGBAPix :=
  let m : Nat := 65535
  let a := (m - s.a) * 257
  ⟨((d.r * a / m + s.r) >>> 8) % 256,
   ((d.g * a / m + s.g) >>> 8) % 256,
   ((d.b * a / m + s.b) >>> 8) % 256,
   ((d.a * a / m + s.a) >>> 8) % 256⟩

/-- A single pixel store into an `*image.RGBA` buffer. -/
def setPix (img : RGBAImage) (px py : Int) (v : RGBAPix) : RGBAImage :=
  ⟨img.bounds, fun x y => if x = px ∧ y = py then v else img.pix x y⟩

/-- The integers of `[lo, hi)` in order. -/
def intRange (lo hi : Int) : List Int :=
  (List.range (hi - lo).toNat).map (fun (i : Nat) => lo + (i : Int))

/-- The row-major pixel loop of Go `draw.Draw` over an already clipped
rectangle `r`: each destination pixel `(x, y)` of `r` is blended with the
source pixel at `(spx + (x - r.minX), spy + (y - r.minY))`. -/
def drawLoop (dst : RGBAImage) (r : Rect) (src : GoImage) (spx spy : Int) : RGBAImage :=
  (intRange r.minY r.maxY).foldl (fun acc y =>
    (intRange r.minX r.maxX).foldl (fun acc2 x =>
      setPix acc2 x y (overBlend (src.rgba (spx + (x - r.minX)) (spy + (y - r.minY))) (acc2.pix x y))) acc) dst

/-- Go `draw.Draw(dst, r, src, sp, draw.Over)`: clip `r` against the
destination bounds and against the source bounds translated to the
destination (Go's `clip`), shift the source point accordingly, then run
the pixel loop. -/
def drawDraw (dst : RGBAImage) (r : Rect) (src : GoImage) (sp : Pt) : RGBAImage :=
  let r1 := (r.inter dst.bounds).inter (src.bounds.translate (r.minX - sp.x) (r.minY - sp.y))
  let spx := sp.x + (r1.minX - r.minX)
  let spy := sp.y + (r1.minY - r.minY)
  drawLoop dst r1 src spx spy

/-- `drawWatermarkAtPosition`: destination rectangle `[pos, pos + wmSize)`,
source point `(0, 0)`, source-over compositing. -/
def drawWatermarkAtPosition (canvas : RGBAImage) (watermarkImg : GoImage) (pos : Pt) : RGBAImage :=
  let wmBounds := watermarkImg.bounds
  drawDraw canvas ⟨pos.x, pos.y, pos.x + wmBounds.dx, pos.y + wmBounds.dy⟩ watermarkImg ⟨0, 0⟩

/-- `generateBaseCanvas`: a fresh `*image.RGBA` with the input's bounds,
with the input drawn onto it with `draw.Src` (per-pixel: the high bytes of
the 16-bit channels); zero outside the bounds. -/
def generateBaseCanvas (inputImg : GoImage) : RGBAImage :=
  ⟨inputImg.bounds, fun x y =>
    if inputImg.bounds.inR x y then
      let c := inputImg.rgba x y
      ⟨c.r >>> 8, c.g >>> 8, c.b >>> 8, c.a >>> 8⟩
    else ⟨0, 0, 0, 0⟩⟩

/-- `applyGridWatermarks`: copy the base onto a fresh canvas, then draw the
watermark at each grid position in emission order. -/
def applyGridWatermarks (inputImg watermarkImg : GoImage) (positions : List Pt) : RGBAImage :=
  let canvas := generateBaseCanvas inputImg
  positions.foldl (fun c pos => drawWatermarkAtPosition c watermarkImg pos) canvas

/-! ## Apply operations (single.go and grid source, current revision) -/

/-- `ApplySingle(inputImg, watermarkImg, config)`: validate, prepare
(opacity, rotation, resize), position, copy the base to a canvas, draw. -/
def ApplySingle (I : Imaging) (sampler : Nat → Nat) (inputImg watermarkImg : GoImage)
    (config : SingleConfig) : Except ConfigError RGBAImage :=
  match config.validate with
  | some e => .error e
  | none =>
    let preparedWM := singlePreparedWatermark I inputImg watermarkImg config.general
    let watermarkPosition := getWatermarkPosition preparedWM inputImg config.verticalAlign config.horizontalAlign config.spacing sampler
    let canvas := generateBaseCanvas inputImg
    .ok (drawWatermarkAtPosition canvas preparedWM watermarkPosition)

/-- `BatchApplySingle(inputImgs, watermarkImg, config)`: validate once,
prepare the opacity/rotation of the watermark once, then process every
input image in a bounded worker pool, each task resizing the shared
prepared watermark against its own base image and writing its canvas to
its own index of the pre-sized results slice; the pool is joined before
returning.  `numCPU` models `runtime.NumCPU()`; the worker-pool size it
feeds bounds concurrency only, so the denotation is the indexed map. -/
def BatchApplySingle (I : Imaging) (sampler : Nat → Nat) (numCPU : Int) (inputImgs : List GoImage)
    (watermarkImg : GoImage) (config : SingleConfig) : Except ConfigError (List RGBAImage) :=
  match config.validate with
  | some e => .error e
  | none =>
    let _maxWorkers := if config.general.maxWorkers ≤ 0 then numCPU else config.general.maxWorkers
    let preparedWM := prepareOpacityRotation I watermarkImg config.general
    .ok (inputImgs.map (fun currImage =>
      let currentWM := resizeWatermark I preparedWM currImage config.general
      let watermarkPosition := getWatermarkPosition currentWM currImage config.verticalAlign config.horizontalAlign config.spacing sampler
      let canvas := generateBaseCanvas currImage
      drawWatermarkAtPosition canvas currentWM watermarkPosition))

/-- `ApplyGrid(inputImg, watermarkImg, config)`: validate, prepare, tile.
`none` means the position loops did not terminate within the fuel. -/
def ApplyGrid (I : Imaging) (inputImg watermarkImg : GoImage) (config : GridConfig)
    (fuel : Nat) : Option (Except ConfigError RGBAImage) :=
  match config.validate with
  | some e => some (.error e)
  | none =>
    let preparedWM := singlePreparedWatermark I inputImg watermarkImg config.general
    match generateGridPositions inputImg preparedWM config fuel with
    | none => none
    | some positions => some (.ok (applyGridWatermarks inputImg preparedWM positions))

/-! ## Helper lemmas -/

lemma gridLoopX_stuck (bound step : Int) (hstep : step ≤ 0) :
    ∀ (fuel : Nat) (x : Int), x < bound → gridLoopX bound step fuel x = none := by
  intro fuel
  induction fuel with
  | zero => intro x hx; simp [gridLoopX, hx]
  | succ n ih =>
    intro x hx
    simp only [gridLoopX, if_pos hx]
    rw [ih (x + step) (by omega)]
    rfl

lemma gridLoopY_stuck (boundX stepX offsetX boundY stepY : Int) (fuelX : Nat)
    (hnone : gridLoopX boundX stepX fuelX offsetX = none) (y : Int) (hy : y < boundY) :
    ∀ fuel, gridLoopY boundX stepX offsetX boundY stepY fuelX fuel y = none := by
  intro fuel
  cases fuel with
  | zero => simp [gridLoopY, hy]
  | succ n => simp [gridLoopY, hy, hnone]

/-! ## C4: degenerate grid step -/

/-- A 10×10 base image (pixels irrelevant to position generation). -/
def gridBugBase : GoImage := ⟨⟨0, 0, 10, 10⟩, fun _ _ => ⟨0, 0, 0, 0⟩⟩

/-- A 2×2 watermark image. -/
def gridBugWM : GoImage := ⟨⟨0, 0, 2, 2⟩, fun _ _ => ⟨0, 0, 0, 0⟩⟩

/-- A grid configuration with a valid general part and
`gridSpacingX = gridSpacingY = -5`, so both grid steps are `2 - 5 = -3`. -/
def gridBugConfig : GridConfig := ⟨⟨1, 100, 0, ⟨2⟩, 0⟩, -5, -5, 0, 0⟩

/-- Claim C4: the claim demands that `generateGridPositions` terminate with
forward progress for every configuration, including non-positive steps.
The code does not: at this valid configuration with steps `-3`, the loop
variables only decrease, the loop conditions stay true forever, and the
function diverges — it returns `none` at every fuel. -/
theorem generateGridPositions_degenerate_step_loops :
    gridBugConfig.validate = none ∧
    ∀ fuel, generateGridPositions gridBugBase gridBugWM gridBugConfig fuel = none := by
  constructor
  · decide
  · intro fuel
    have hx : gridLoopX (10 : Int) (-3) fuel 0 = none :=
      gridLoopX_stuck 10 (-3) (by omega) fuel 0 (by omega)
    have hy := gridLoopY_stuck 10 (-3) 0 10 (-3) fuel hx 0 (by omega) fuel
    simpa [generateGridPositions, gridBugBase, gridBugWM, gridBugConfig, Rect.dx, Rect.dy] using hy

/-! ## C3: single-placement per-axis rules -/

/-- Claim C3: per axis, Left/Top gives `spacing`; Right/Bottom gives
`baseSize - wmSize - spacing`; Middle gives `(baseSize - wmSize) / 2` with
truncating integer division; any unrecognized alignment value gives the
Middle coordinate for that axis. -/
theorem getWatermarkPosition_align_rules :
    ∀ (wm input : GoImage) (vA hA : Int) (spacing : Int) (sampler : Nat → Nat),
      ((getWatermarkPosition wm input vA HorizontalLeft spacing sampler).x = spacing) ∧
      ((getWatermarkPosition wm input vA HorizontalRight spacing sampler).x
        = input.bounds.dx - wm.bounds.dx - spacing) ∧
      ((getWatermarkPosition wm input vA HorizontalMiddle spacing sampler).x
        = Int.tdiv (input.bounds.dx - wm.bounds.dx) 2) ∧
      (hA ≠ HorizontalLeft → hA ≠ HorizontalMiddle → hA ≠ HorizontalRight → hA ≠ HorizontalRandom →
        (getWatermarkPosition wm input vA hA spacing sampler).x
          = Int.tdiv (input.bounds.dx - wm.bounds.dx) 2) ∧
      ((getWatermarkPosition wm input VerticalTop hA spacing sampler).y = spacing) ∧
      ((getWatermarkPosition wm input VerticalBottom hA spacing sampler).y
        = input.bounds.dy - wm.bounds.dy - spacing) ∧
      ((getWatermarkPosition wm input VerticalMiddle hA spacing sampler).y
        = Int.tdiv (input.bounds.dy - wm.bounds.dy) 2) ∧
      (vA ≠ VerticalTop → vA ≠ VerticalMiddle → vA ≠ VerticalBottom → vA ≠ VerticalRandom →
        (getWatermarkPosition wm input vA hA spacing sampler).y
          = Int.tdiv (input.bounds.dy - wm.bounds.dy) 2) := by
  intro wm input vA hA spacing sampler
  refine ⟨?_, ?_, ?_, ?_, ?_, ?_, ?_, ?_⟩ <;>
    simp +decide [getWatermarkPosition, HorizontalLeft, HorizontalMiddle, HorizontalRight,
      HorizontalRandom, VerticalTop, VerticalMiddle, VerticalBottom, VerticalRandom]
  · intro h1 h2 h3 h4
    simp [h1, h2, h3, h4]
  · intro h1 h2 h3 h4
    simp [h1, h2, h3, h4]

/-! ## C6: Random alignment bounds -/

/-- Claim C6: Random alignment stays within
`[spacing, max(baseSize - wmSize - spacing, spacing)]` on each axis, and
when `baseSize - wmSize - spacing ≤ spacing` the coordinate is exactly
`spacing` for every sampler, i.e. no random draw is consulted. -/
theorem getWatermarkPosition_random_bounds
    (wm input : GoImage) (spacing : Int) (sampler : Nat → Nat)
    (hs : ∀ n : Nat, 0 < n → sampler n < n) :
    (spacing ≤ (getWatermarkPosition wm input VerticalRandom HorizontalRandom spacing sampler).x ∧
      (getWatermarkPosition wm input VerticalRandom HorizontalRandom spacing sampler).x
        ≤ max (input.bounds.dx - wm.bounds.dx - spacing) spacing) ∧
    (input.bounds.dx - wm.bounds.dx - spacing ≤ spacing →
      ∀ sampler2 : Nat → Nat,
        (getWatermarkPosition wm input VerticalRandom HorizontalRandom spacing sampler2).x = spacing) ∧
    (spacing ≤ (getWatermarkPosition wm input VerticalRandom HorizontalRandom spacing sampler).y ∧
      (getWatermarkPosition wm input VerticalRandom HorizontalRandom spacing sampler).y
        ≤ max (input.bounds.dy - wm.bounds.dy - spacing) spacing) ∧
    (input.bounds.dy - wm.bounds.dy - spacing ≤ spacing →
      ∀ sampler2 : Nat → Nat,
        (getWatermarkPosition wm input VerticalRandom HorizontalRandom spacing sampler2).y = spacing) := by
  simp only [getWatermarkPosition, VerticalRandom, HorizontalRandom, HorizontalLeft,
    HorizontalMiddle, HorizontalRight, VerticalTop, VerticalMiddle, VerticalBottom]
  norm_num
  constructor
  · by_cases hx : input.bounds.dx - wm.bounds.dx - spacing > spacing
    · have h1 : (0 : Int) < input.bounds.dx - wm.bounds.dx - spacing - spacing + 1 := by omega
      have h2 := hs (input.bounds.dx - wm.bounds.dx - spacing - spacing + 1).toNat (by omega)
      simp only [if_pos hx]
      omega
    · simp only [if_neg hx]
      omega
  constructor
  · intro hx sampler2
    have : ¬ (input.bounds.dx - wm.bounds.dx - spacing > spacing) := by omega
    simp [this]
  constructor
  · by_cases hy : input.bounds.dy - wm.bounds.dy - spacing > spacing
    · have h1 : (0 : Int) < input.bounds.dy - wm.bounds.dy - spacing - spacing + 1 := by omega
      have h2 := hs (input.bounds.dy - wm.bounds.dy - spacing - spacing + 1).toNat (by omega)
      simp only [if_pos hy]
      omega
    · simp only [if_neg hy]
      omega
  · intro hy sampler2
    have : ¬ (input.bounds.dy - wm.bounds.dy - spacing > spacing) := by omega
    simp [this]

/-- Concrete instance of claim C6's theorem: a 10×10 base, a 3×3
watermark, spacing 2 and the constant-zero sampler. -/
theorem getWatermarkPosition_random_bounds_witness :
    (2 ≤ (getWatermarkPosition gridBugWM gridBugBase VerticalRandom HorizontalRandom 2 (fun _ => 0)).x ∧
      (getWatermarkPosition gridBugWM gridBugBase VerticalRandom HorizontalRandom 2 (fun _ => 0)).x
        ≤ max (gridBugBase.bounds.dx - gridBugWM.bounds.dx - 2) 2) ∧
    (gridBugBase.bounds.dx - gridBugWM.bounds.dx - 2 ≤ 2 →
      ∀ sampler2 : Nat → Nat,
        (getWatermarkPosition gridBugWM gridBugBase VerticalRandom HorizontalRandom 2 sampler2).x = 2) ∧
    (2 ≤ (getWatermarkPosition gridBugWM gridBugBase VerticalRandom HorizontalRandom 2 (fun _ => 0)).y ∧
      (getWatermarkPosition gridBugWM gridBugBase VerticalRandom HorizontalRandom 2 (fun _ => 0)).y
        ≤ max (gridBugBase.bounds.dy - gridBugWM.bounds.dy - 2) 2) ∧
    (gridBugBase.bounds.dy - gridBugWM.bounds.dy - 2 ≤ 2 →
      ∀ sampler2 : Nat → Nat,
        (getWatermarkPosition gridBugWM gridBugBase VerticalRandom HorizontalRandom 2 sampler2).y = 2) :=
  getWatermarkPosition_random_bounds gridBugWM gridBugBase 2 (fun _ => 0) (fun _ h => h)

/-! ## C8: configuration validation -/

lemma validateG_ne_spacing (d : GeneralConfig) : d.validate ≠ some .spacing := by
  unfold GeneralConfig.validate
  split_ifs <;> simp

/-- Claim C8: validation checks the fields in the fixed order opacity,
width percent, rotation degrees, max workers, then (single only) spacing,
fails fast with an error naming the first violated check, and accepts
exactly opacity ∈ (0,1], width percent ∈ (0,100], rotation degrees in the
code's documented range [0,360], spacing ≥ 0, max workers ≥ 0; the grid
spacings and offsets are unconstrained (grid validation is exactly the
general validation). -/
theorem validate_order_and_acceptance :
    ∀ (c : GeneralConfig) (s : SingleConfig) (g : GridConfig),
      (c.validate = none ↔
        (0 < c.opacityAlpha ∧ c.opacityAlpha ≤ 1) ∧
        (0 < c.watermarkWidthPercent ∧ c.watermarkWidthPercent ≤ 100) ∧
        (0 ≤ c.rotationDegrees ∧ c.rotationDegrees ≤ 360) ∧
        0 ≤ c.maxWorkers) ∧
      (c.validate = some .opacity ↔ ¬(0 < c.opacityAlpha ∧ c.opacityAlpha ≤ 1)) ∧
      (c.validate = some .widthPercent ↔
        (0 < c.opacityAlpha ∧ c.opacityAlpha ≤ 1) ∧
        ¬(0 < c.watermarkWidthPercent ∧ c.watermarkWidthPercent ≤ 100)) ∧
      (c.validate = some .rotationDeg ↔
        (0 < c.opacityAlpha ∧ c.opacityAlpha ≤ 1) ∧
        (0 < c.watermarkWidthPercent ∧ c.watermarkWidthPercent ≤ 100) ∧
        ¬(0 ≤ c.rotationDegrees ∧ c.rotationDegrees ≤ 360)) ∧
      (c.validate = some .maxWorkers ↔
        (0 < c.opacityAlpha ∧ c.opacityAlpha ≤ 1) ∧
        (0 < c.watermarkWidthPercent ∧ c.watermarkWidthPercent ≤ 100) ∧
        (0 ≤ c.rotationDegrees ∧ c.rotationDegrees ≤ 360) ∧
        c.maxWorkers < 0) ∧
      (s.validate = none ↔ s.general.validate = none ∧ 0 ≤ s.spacing) ∧
      (s.validate = some .spacing ↔ s.general.validate = none ∧ s.spacing < 0) ∧
      (∀ e : ConfigError, s.general.validate = some e → s.validate = some e) ∧
      (g.validate = g.general.validate) := by
  intro c s g
  have hgen : ∀ d : GeneralConfig,
      (d.validate = none ↔
        (0 < d.opacityAlpha ∧ d.opacityAlpha ≤ 1) ∧
        (0 < d.watermarkWidthPercent ∧ d.watermarkWidthPercent ≤ 100) ∧
        (0 ≤ d.rotationDegrees ∧ d.rotationDegrees ≤ 360) ∧
        0 ≤ d.maxWorkers) := by
    intro d
    unfold GeneralConfig.validate
    split_ifs with h1 h2 h3 h4 <;> (try simp_all [not_or, not_le, not_lt]) <;>
      first
      | rfl
      | tauto
      | (intros; casesm* _ ∨ _, _ ∧ _ <;> linarith)
  refine ⟨hgen c, ?_, ?_, ?_, ?_, ?_, ?_, ?_, rfl⟩
  · unfold GeneralConfig.validate
    split_ifs with h1 h2 h3 h4 <;> (try simp_all [not_or, not_le, not_lt]) <;>
      first
      | rfl
      | tauto
      | (intros; casesm* _ ∨ _, _ ∧ _ <;> linarith)
  · unfold GeneralConfig.validate
    split_ifs with h1 h2 h3 h4 <;> (try simp_all [not_or, not_le, not_lt]) <;>
      first
      | rfl
      | tauto
      | (intros; casesm* _ ∨ _, _ ∧ _ <;> linarith)
  · unfold GeneralConfig.validate
    split_ifs with h1 h2 h3 h4 <;> (try simp_all [not_or, not_le, not_lt]) <;>
      first
      | rfl
      | tauto
      | (intros; casesm* _ ∨ _, _ ∧ _ <;> linarith)
  · unfold GeneralConfig.validate
    split_ifs with h1 h2 h3 h4 <;> (try simp_all [not_or, not_le, not_lt]) <;>
      first
      | rfl
      | tauto
      | (intros; casesm* _ ∨ _, _ ∧ _ <;> linarith)
  · unfold SingleConfig.validate
    rcases hv : s.general.validate with _ | e
    · simp [not_lt]
    · simp
  · unfold SingleConfig.validate
    rcases hv : s.general.validate with _ | e
    · split_ifs with h <;> simp_all
    · simp
      rintro rfl
      exact validateG_ne_spacing s.general hv
  · intro e he
    unfold SingleConfig.validate
    rw [he]

/-! ## Compositor lemmas -/

lemma intRange_mem (lo hi x : Int) : x ∈ intRange lo hi ↔ lo ≤ x ∧ x < hi := by
  unfold intRange
  rw [List.mem_map]
  constructor
  · rintro ⟨i, hi2, rfl⟩
    rw [List.mem_range] at hi2
    omega
  · intro h
    refine ⟨(x - lo).toNat, ?_, ?_⟩
    · rw [List.mem_range]
      omega
    · omega

lemma Rect.inR_inter (a b : Rect) (x y : Int) :
    (a.inter b).inR x y ↔ a.inR x y ∧ b.inR x y := by
  simp only [Rect.inter, Rect.inR]
  omega

lemma setPix_bounds (img : RGBAImage) (px py : Int) (v : RGBAPix) :
    (setPix img px py v).bounds = img.bounds := rfl

lemma foldl_bounds {α : Type} (f : RGBAImage → α → RGBAImage)
    (hf : ∀ a x, (f a x).bounds = a.bounds) :
    ∀ (l : List α) (acc : RGBAImage), (l.foldl f acc).bounds = acc.bounds := by
  intro l
  induction l with
  | nil => intro acc; rfl
  | cons x xs ih => intro acc; rw [List.foldl_cons, ih (f acc x), hf]

lemma drawLoop_bounds (dst : RGBAImage) (r : Rect) (src : GoImage) (spx spy : Int) :
    (drawLoop dst r src spx spy).bounds = dst.bounds := by
  unfold drawLoop
  apply foldl_bounds
  intro a y
  apply foldl_bounds
  intro a2 x
  rfl

lemma drawRow_pix_ne (src : GoImage) (rMinX rMinY spx spy y px py : Int)
    (xs : List Int) (h : py ≠ y ∨ px ∉ xs) :
    ∀ acc : RGBAImage,
      (xs.foldl (fun acc2 x =>
        setPix acc2 x y (overBlend (src.rgba (spx + (x - rMinX)) (spy + (y - rMinY))) (acc2.pix x y))) acc).pix px py
        = acc.pix px py := by
  induction xs with
  | nil => intro acc; rfl
  | cons x xs ih =>
    intro acc
    have hnm : py ≠ y ∨ px ∉ xs := by
      rcases h with h | h
      · exact Or.inl h
      · simp only [List.mem_cons, not_or] at h
        exact Or.inr h.2
    have hne : ¬ (px = x ∧ py = y) := by
      rcases h with h | h
      · exact fun hc => h hc.2
      · simp only [List.mem_cons, not_or] at h
        exact fun hc => h.1 hc.1
    rw [List.foldl_cons, ih hnm]
    simp [setPix, hne]

lemma drawCols_pix_ne (src : GoImage) (rMinX rMaxX rMinY spx spy px py : Int)
    (ys : List Int) (h : ∀ y ∈ ys, py ≠ y ∨ px ∉ intRange rMinX rMaxX) :
    ∀ acc : RGBAImage,
      (ys.foldl (fun acc y =>
        (intRange rMinX rMaxX).foldl (fun acc2 x =>
          setPix acc2 x y (overBlend (src.rgba (spx + (x - rMinX)) (spy + (y - rMinY))) (acc2.pix x y))) acc) acc).pix px py
        = acc.pix px py := by
  induction ys with
  | nil => intro acc; rfl
  | cons y ys ih =>
    intro acc
    rw [List.foldl_cons, ih (fun z hz => h z (List.mem_cons_of_mem y hz))]
    exact drawRow_pix_ne src rMinX rMinY spx spy y px py _ (h y (List.mem_cons_self y ys)) acc

lemma drawLoop_pix_not_inR (dst : RGBAImage) (r : Rect) (src : GoImage) (spx spy px py : Int)
    (h : ¬ r.inR px py) : (drawLoop dst r src spx spy).pix px py = dst.pix px py := by
  unfold drawLoop
  apply drawCols_pix_ne
  intro y hy
  by_cases hpy : py = y
  · subst hpy
    right
    rw [intRange_mem]
    have hy2 := (intRange_mem _ _ _).1 hy
    unfold Rect.inR at h
    omega
  · exact Or.inl hpy

lemma drawWatermarkAtPosition_bounds (canvas : RGBAImage) (wm : GoImage) (pos : Pt) :
    (drawWatermarkAtPosition canvas wm pos).bounds = canvas.bounds := by
  unfold drawWatermarkAtPosition drawDraw
  exact drawLoop_bounds _ _ _ _ _

/-! ## C7: compositing clips to the canvas -/

/-- Claim C7: for every canvas, watermark and placement point (including
off-canvas points), compositing writes only pixels in the intersection of
the destination rectangle `[pos, pos + wmSize)` with the canvas bounds —
every pixel outside that intersection is unchanged, so an out-of-canvas
rectangle is clipped, never wrapped; the canvas bounds are untouched and
the operation is total (no error). -/
theorem drawWatermarkAtPosition_clips (canvas : RGBAImage) (wm : GoImage) (pos : Pt) (px py : Int)
    (h : ¬ ((Rect.mk pos.x pos.y (pos.x + wm.bounds.dx) (pos.y + wm.bounds.dy)).inR px py ∧
            canvas.bounds.inR px py)) :
    (drawWatermarkAtPosition canvas wm pos).pix px py = canvas.pix px py ∧
    (drawWatermarkAtPosition canvas wm pos).bounds = canvas.bounds := by
  refine ⟨?_, drawWatermarkAtPosition_bounds canvas wm pos⟩
  unfold drawWatermarkAtPosition drawDraw
  apply drawLoop_pix_not_inR
  intro hmem
  rw [Rect.inR_inter] at hmem
  rw [Rect.inR_inter] at hmem
  exact h ⟨hmem.1.1, hmem.1.2⟩

/-- A 4×4 opaque white base image. -/
def witBase : GoImage := ⟨⟨0, 0, 4, 4⟩, fun _ _ => ⟨65535, 65535, 65535, 65535⟩⟩

/-- A 2×2 opaque red watermark image. -/
def witWM : GoImage := ⟨⟨0, 0, 2, 2⟩, fun _ _ => ⟨65535, 0, 0, 65535⟩⟩

/-- A 4×4 premultiplied canvas. -/
def witCanvas : RGBAImage := ⟨⟨0, 0, 4, 4⟩, fun _ _ => ⟨7, 7, 7, 255⟩⟩

/-- Concrete instance of claim C7's theorem: drawing the 2×2 watermark at
`(3, 3)` (its rectangle `[3,5)×[3,5)` sticks out of the 4×4 canvas) leaves
the pixel `(0, 0)` unchanged and the bounds untouched. -/
theorem drawWatermarkAtPosition_clips_witness :
    (drawWatermarkAtPosition witCanvas witWM ⟨3, 3⟩).pix 0 0 = witCanvas.pix 0 0 ∧
    (drawWatermarkAtPosition witCanvas witWM ⟨3, 3⟩).bounds = witCanvas.bounds :=
  drawWatermarkAtPosition_clips witCanvas witWM ⟨3, 3⟩ 0 0 (by decide)

/-! ## C10: output bounds equal input bounds -/

/-- The trivial interpretation of the opaque imaging primitives, used by
the concrete witnesses below: resize and rotate return the image
unchanged. -/
def witImaging : Imaging := ⟨fun img _ _ => img, fun img _ => img⟩

/-- An integral, valid general configuration: opacity 1, width percent
100, rotation 0, CatmullRom, maxWorkers 0. -/
def witGeneral : GeneralConfig := ⟨1, 100, 0, ⟨2⟩, 0⟩

/-- A valid single configuration: Top/Left alignment, spacing 0. -/
def witSingleConfig : SingleConfig := ⟨witGeneral, 0, 0, 0⟩

/-- A valid grid configuration: zero spacings and offsets. -/
def witGridConfig : GridConfig := ⟨witGeneral, 0, 0, 0, 0⟩

/-- Claim C10: every successful apply (single or grid) returns a canvas
whose bounds equal the base image's bounds, for every watermark size,
alignment, rotation and placement: the canvas is the fresh copy
`generateBaseCanvas` makes of the base, and drawing never changes bounds. -/
theorem apply_output_bounds
    (I : Imaging) (sampler : Nat → Nat) (inputImg wm : GoImage) (scfg : SingleConfig)
    (I2 : Imaging) (inputImg2 wm2 : GoImage) (gcfg : GridConfig) (fuel : Nat) (ps : List Pt)
    (h1 : scfg.validate = none) (h2 : gcfg.validate = none)
    (h3 : generateGridPositions inputImg2 (singlePreparedWatermark I2 inputImg2 wm2 gcfg.general) gcfg fuel = some ps) :
    (∃ out, ApplySingle I sampler inputImg wm scfg = .ok out ∧ out.bounds = inputImg.bounds) ∧
    (∃ out, ApplyGrid I2 inputImg2 wm2 gcfg fuel = some (.ok out) ∧ out.bounds = inputImg2.bounds) := by
  constructor
  · refine ⟨drawWatermarkAtPosition (generateBaseCanvas inputImg)
      (singlePreparedWatermark I inputImg wm scfg.general)
      (getWatermarkPosition (singlePreparedWatermark I inputImg wm scfg.general) inputImg
        scfg.verticalAlign scfg.horizontalAlign scfg.spacing sampler), ?_, ?_⟩
    · simp only [ApplySingle, h1]
    · rw [drawWatermarkAtPosition_bounds]
      rfl
  · refine ⟨applyGridWatermarks inputImg2 (singlePreparedWatermark I2 inputImg2 wm2 gcfg.general) ps, ?_, ?_⟩
    · simp only [ApplyGrid, h2, h3]
    · unfold applyGridWatermarks
      rw [foldl_bounds _ (fun a p => drawWatermarkAtPosition_bounds a _ p)]
      rfl

/-- Concrete instance of claim C10's theorem. -/
theorem apply_output_bounds_witness :
    (∃ out, ApplySingle witImaging (fun _ => 0) witBase witWM witSingleConfig = .ok out ∧
      out.bounds = witBase.bounds) ∧
    (∃ out, ApplyGrid witImaging witBase witWM witGridConfig 8 = some (.ok out) ∧
      out.bounds = witBase.bounds) :=
  apply_output_bounds witImaging (fun _ => 0) witBase witWM witSingleConfig
    witImaging witBase witWM witGridConfig 8 [⟨0, 0⟩, ⟨2, 0⟩, ⟨0, 2⟩, ⟨2, 2⟩]
    (by decide) (by decide) (by decide)

/-! ## C9: batch apply matches per-image single apply -/

/-- Claim C9: for every list of base images, watermark and valid single
configuration with deterministic (non-Random) alignments, the batch apply
returns exactly one result per input image, in input order, and the result
at each position equals the single-image apply on that base image with the
same watermark and configuration. -/
theorem BatchApplySingle_matches_ApplySingle
    (I : Imaging) (sampler : Nat → Nat) (numCPU : Int) (inputImgs : List GoImage)
    (wm : GoImage) (config : SingleConfig)
    (h1 : config.validate = none)
    (h2 : config.horizontalAlign ≠ HorizontalRandom)
    (h3 : config.verticalAlign ≠ VerticalRandom) :
    ∃ f : GoImage → RGBAImage,
      BatchApplySingle I sampler numCPU inputImgs wm config = .ok (inputImgs.map f) ∧
      (inputImgs.map f).length = inputImgs.length ∧
      ∀ img : GoImage, ApplySingle I sampler img wm config = .ok (f img) := by
  refine ⟨fun img => drawWatermarkAtPosition (generateBaseCanvas img)
    (singlePreparedWatermark I img wm config.general)
    (getWatermarkPosition (singlePreparedWatermark I img wm config.general) img
      config.verticalAlign config.horizontalAlign config.spacing sampler), ?_, ?_, ?_⟩
  · simp only [BatchApplySingle, h1]
    rfl
  · rw [List.length_map]
  · intro img
    simp only [ApplySingle, h1]

/-- Concrete instance of claim C9's theorem: one base image, identity
imaging primitives, Top/Left alignment. -/
theorem BatchApplySingle_matches_ApplySingle_witness :
    ∃ f : GoImage → RGBAImage,
      BatchApplySingle witImaging (fun _ => 0) 4 [witBase] witWM witSingleConfig = .ok ([witBase].map f) ∧
      ([witBase].map f).length = [witBase].length ∧
      ∀ img : GoImage, ApplySingle witImaging (fun _ => 0) img witWM witSingleConfig = .ok (f img) :=
  BatchApplySingle_matches_ApplySingle witImaging (fun _ => 0) 4 [witBase] witWM witSingleConfig
    (by decide) (by decide) (by decide)

lemma ratTrunc_eq_floor (q : ℚ) (h : 0 ≤ q) : ratTrunc q = ⌊q⌋ := by
  unfold ratTrunc
  rw [Rat.floor_def]
  rw [Int.tdiv_eq_ediv (Rat.num_nonneg.2 h) (by positivity)]

/-! ## C2: the opacity transform -/

/-- A one-pixel straight-alpha image with a half-transparent red pixel. -/
def cexTranslucent : NRGBAImage := ⟨⟨0, 0, 1, 1⟩, fun _ _ => ⟨200, 0, 0, 128⟩⟩

/-- A one-pixel straight-alpha image with an opaque black pixel. -/
def cexOpaque : NRGBAImage := ⟨⟨0, 0, 1, 1⟩, fun _ _ => ⟨0, 0, 0, 255⟩⟩

/-- Claim C2 as stated is false at two concrete inputs with opacity 1/2
(a float64-exact value, so the rational model is exact here):
* on a straight NRGBA pixel (200, 0, 0, 128) the claim requires the color
  channels unchanged, `(200, 0, 0, round(128 × 1/2))`; the code reads the
  alpha-premultiplied `RGBA()` channels and keeps their high bytes, so the
  red channel comes out `≈ 200·128/255 = 100`, not `200`;
* on an opaque pixel (0, 0, 0, 255) the claim requires alpha
  `round(255 × 1/2) = 128`; the code's `uint8(...)` conversion truncates
  `127.5` to `127`. -/
theorem applyOpacity_claim_counterexample :
    (applyOpacity cexTranslucent.toGo (1 / 2)).pix 0 0 ≠
      ⟨200, 0, 0, (round ((128 : ℚ) * (1 / 2))).toNat⟩ ∧
    (applyOpacity cexOpaque.toGo (1 / 2)).pix 0 0 ≠
      ⟨0, 0, 0, (round ((255 : ℚ) * (1 / 2))).toNat⟩ := by
  have hm1 : (cexTranslucent.toGo).bounds.inR 0 0 := by decide
  have hm2 : (cexOpaque.toGo).bounds.inR 0 0 := by decide
  have hc1 : cexTranslucent.toGo.rgba 0 0 = ⟨25800, 0, 0, 32896⟩ := by decide
  have hc2 : cexOpaque.toGo.rgba 0 0 = ⟨0, 0, 0, 65535⟩ := by decide
  have e1 : (applyOpacity cexTranslucent.toGo (1 / 2)).pix 0 0 = ⟨100, 0, 0, 64⟩ := by
    simp only [applyOpacity, if_pos hm1, hc1]
    have h8 : ((32896 : Nat) >>> 8) = 128 := by decide
    have hr : ((25800 : Nat) >>> 8) = 100 := by decide
    have h0 : ((0 : Nat) >>> 8) = 0 := by decide
    rw [h8, hr, h0]
    have ha : (ratTrunc (64 : ℚ)).toNat = 64 := by
      rw [ratTrunc_eq_floor _ (by norm_num)]
      norm_num
      decide
    norm_num [ha]
  have e2 : (applyOpacity cexOpaque.toGo (1 / 2)).pix 0 0 = ⟨0, 0, 0, 127⟩ := by
    simp only [applyOpacity, if_pos hm2, hc2]
    have h8 : ((65535 : Nat) >>> 8) = 255 := by decide
    have h0 : ((0 : Nat) >>> 8) = 0 := by decide
    rw [h8, h0]
    have ha : (ratTrunc ((255 : ℚ) / 2)).toNat = 127 := by
      rw [ratTrunc_eq_floor _ (by norm_num)]
      norm_num
      decide
    norm_num [ha]
  have hr1 : (round ((128 : ℚ) * (1 / 2))).toNat = 64 := by
    norm_num
    decide
  have hr2 : (round ((255 : ℚ) * (1 / 2))).toNat = 128 := by
    norm_num [round_eq]
    decide
  constructor
  · rw [e1, hr1]
    decide
  · rw [e2, hr2]
    decide

/-- The rational 1/2, written in normal form (float64-exact). -/
def half : ℚ := ⟨1, 2, by decide, by decide⟩

/-- Claim C2 (amended): for opacity ∈ (0,1), the transform maps each
in-bounds pixel of a straight-alpha 8-bit source to the pixel whose
r/g/b channels are the high bytes of the alpha-premultiplied 16-bit
channels, `c*257*a/255 >> 8` — so a partially transparent pixel's color
channels are scaled by its own alpha, and are unchanged exactly for fully
opaque pixels — and whose alpha equals `old_alpha × opacity` truncated
toward zero (not rounded). -/
theorem applyOpacity_amended (src : NRGBAImage) (opacity : ℚ) (x y : Int)
    (hin : src.bounds.inR x y)
    (hr : (src.pix x y).r < 256) (hg : (src.pix x y).g < 256)
    (hb : (src.pix x y).b < 256) (ha : (src.pix x y).a < 256)
    (h0 : 0 < opacity) (h1 : opacity < 1) :
    (applyOpacity src.toGo opacity).pix x y =
      ⟨((src.pix x y).r * 257 * (src.pix x y).a / 255) >>> 8,
       ((src.pix x y).g * 257 * (src.pix x y).a / 255) >>> 8,
       ((src.pix x y).b * 257 * (src.pix x y).a / 255) >>> 8,
       (ratTrunc (((src.pix x y).a : ℚ) * opacity)).toNat⟩ ∧
    ((src.pix x y).a = 255 →
      ((applyOpacity src.toGo opacity).pix x y).r = (src.pix x y).r ∧
      ((applyOpacity src.toGo opacity).pix x y).g = (src.pix x y).g ∧
      ((applyOpacity src.toGo opacity).pix x y).b = (src.pix x y).b) := by
  have hmain : (applyOpacity src.toGo opacity).pix x y =
      ⟨((src.pix x y).r * 257 * (src.pix x y).a / 255) >>> 8,
       ((src.pix x y).g * 257 * (src.pix x y).a / 255) >>> 8,
       ((src.pix x y).b * 257 * (src.pix x y).a / 255) >>> 8,
       (ratTrunc (((src.pix x y).a : ℚ) * opacity)).toNat⟩ := by
    simp only [applyOpacity, NRGBAImage.toGo, NRGBAPix.toCol16, if_pos hin]
    have h257 : ((src.pix x y).a * 257) >>> 8 = (src.pix x y).a := by
      rw [Nat.shiftRight_eq_div_pow]
      omega
    rw [h257]
  refine ⟨hmain, ?_⟩
  intro hop
  rw [hmain, hop]
  have hcanc : ∀ c : Nat, c < 256 → (c * 257 * 255 / 255) >>> 8 = c := by
    intro c hc
    rw [Nat.mul_div_cancel _ (by norm_num)]
    rw [Nat.shiftRight_eq_div_pow]
    omega
  exact ⟨hcanc _ hr, hcanc _ hg, hcanc _ hb⟩

/-- Concrete instance of claim C2's amended theorem: the translucent red
pixel at opacity 1/2. -/
theorem applyOpacity_amended_witness :
    (applyOpacity cexTranslucent.toGo half).pix 0 0 =
      ⟨((cexTranslucent.pix 0 0).r * 257 * (cexTranslucent.pix 0 0).a / 255) >>> 8,
       ((cexTranslucent.pix 0 0).g * 257 * (cexTranslucent.pix 0 0).a / 255) >>> 8,
       ((cexTranslucent.pix 0 0).b * 257 * (cexTranslucent.pix 0 0).a / 255) >>> 8,
       (ratTrunc (((cexTranslucent.pix 0 0).a : ℚ) * half)).toNat⟩ ∧
    ((cexTranslucent.pix 0 0).a = 255 →
      ((applyOpacity cexTranslucent.toGo half).pix 0 0).r = (cexTranslucent.pix 0 0).r ∧
      ((applyOpacity cexTranslucent.toGo half).pix 0 0).g = (cexTranslucent.pix 0 0).g ∧
      ((applyOpacity cexTranslucent.toGo half).pix 0 0).b = (cexTranslucent.pix 0 0).b) :=
  applyOpacity_amended cexTranslucent half 0 0 (by decide) (by decide) (by decide)
    (by decide) (by decide) (by decide) (by decide)

/-! ## C1: transform pipeline order -/

/-- The prepared watermark exactly as claim C1 states it: resize to
`floor(baseWidth × widthPercent / 100)` first, then rotate (skipped when
degrees = 0), then opacity (skipped when opacity = 1). -/
def specPreparedWatermark (I : Imaging) (baseImg watermarkImg : GoImage) (config : GeneralConfig) : GoImage :=
  let targetWidth := ⌊(baseImg.bounds.dx : ℚ) * config.watermarkWidthPercent / 100⌋
  let resampleFilter := if config.resampleFilter.support ≤ 0 then CatmullRom else config.resampleFilter
  let resized := I.resize watermarkImg targetWidth resampleFilter
  let rotated := if config.rotationDegrees = 0 then resized else I.rotate resized config.rotationDegrees
  if config.opacityAlpha = 1 then rotated else (applyOpacity rotated config.opacityAlpha).toGo

/-- The prepared watermark as the amended claim states it: opacity first
(skipped when opacity = 1), then rotation (skipped when degrees = 0), then
resize to `floor(baseWidth × widthPercent / 100)` of the base image. -/
def amendedPreparedWatermark (I : Imaging) (baseImg watermarkImg : GoImage) (config : GeneralConfig) : GoImage :=
  let withOpacity := if config.opacityAlpha = 1 then watermarkImg else (applyOpacity watermarkImg config.opacityAlpha).toGo
  let withRotation := if config.rotationDegrees = 0 then withOpacity else I.rotate withOpacity config.rotationDegrees
  let targetWidth := ⌊(baseImg.bounds.dx : ℚ) * config.watermarkWidthPercent / 100⌋
  let resampleFilter := if config.resampleFilter.support ≤ 0 then CatmullRom else config.resampleFilter
  I.resize withRotation targetWidth resampleFilter

/-- An interpretation of the opaque resize primitive that returns the 2×2
opaque red image: enough to witness that applying opacity before resize
(the code) and after resize (the claim) are different pipelines. -/
def cexImaging : Imaging := ⟨fun _ _ _ => witWM, fun img _ => img⟩

/-- A valid general configuration with opacity 1/2 and rotation 0. -/
def cexConfig : GeneralConfig := ⟨half, 100, 0, ⟨2⟩, 0⟩

lemma half_eq : half = 1 / 2 := by
  unfold half
  rw [Rat.mk'_eq_divInt, Rat.divInt_eq_div]
  norm_num

/-- Claim C1 as stated is false: at a valid configuration with opacity 1/2
and rotation 0, the code's prepared watermark is
`resize(applyOpacity(wm))` while the claim requires
`applyOpacity(resize(wm))`, and the two differ at pixel (0,0): the code's
pipeline resizes last, so the claimed pipeline's opacity scaling (alpha
127) is absent from the code's result (alpha 255 here). -/
theorem pipeline_order_counterexample :
    cexConfig.validate = none ∧
    specPreparedWatermark cexImaging witBase witWM cexConfig ≠
      singlePreparedWatermark cexImaging witBase witWM cexConfig := by
  constructor
  · decide
  · have ha : (ratTrunc ((255 : ℚ) * half)).toNat = 127 := by
      rw [half_eq, ratTrunc_eq_floor _ (by norm_num)]
      norm_num
      decide
    have hpx : (applyOpacity witWM half).pix 0 0 = ⟨255, 0, 0, 127⟩ := by
      have hmem : witWM.bounds.inR 0 0 := by decide
      simp only [applyOpacity, if_pos hmem]
      rw [show (witWM.rgba 0 0).r >>> 8 = 255 from by decide,
          show (witWM.rgba 0 0).g >>> 8 = 0 from by decide,
          show (witWM.rgba 0 0).b >>> 8 = 0 from by decide,
          show ((witWM.rgba 0 0).a >>> 8 : Nat) = 255 from by decide,
          show ((255 : Nat) : ℚ) = (255 : ℚ) from by norm_num, ha]
    have hcode : (singlePreparedWatermark cexImaging witBase witWM cexConfig).rgba 0 0
        = ⟨65535, 0, 0, 65535⟩ := by decide
    have hexp : specPreparedWatermark cexImaging witBase witWM cexConfig
        = (applyOpacity witWM half).toGo := by
      unfold specPreparedWatermark
      simp only [cexImaging, cexConfig, if_true]
      rw [if_neg (show ¬ ((half : ℚ) = 1) from by decide)]
    have hspec : (specPreparedWatermark cexImaging witBase witWM cexConfig).rgba 0 0
        = ⟨32639, 0, 0, 32639⟩ := by
      rw [hexp]
      simp only [NRGBAImage.toGo]
      rw [hpx]
      decide
    intro h
    rw [congrArg (fun g : GoImage => g.rgba 0 0) h, hcode] at hspec
    exact absurd hspec (by decide)

/-- Claim C1 (amended): for every interpretation of the opaque imaging
primitives, every base and watermark image and every valid configuration,
the code's prepared watermark applies opacity first (skipped when
opacity = 1, which under validity is the same condition as the code's
`opacity < 1` being false), then rotation (skipped when degrees = 0), then
the resize to `floor(baseWidth × widthPercent / 100)`. -/
theorem pipeline_order_amended (I : Imaging) (baseImg wm : GoImage) (config : GeneralConfig)
    (hv : config.validate = none) (hw : 0 ≤ baseImg.bounds.dx) :
    singlePreparedWatermark I baseImg wm config = amendedPreparedWatermark I baseImg wm config := by
  unfold GeneralConfig.validate at hv
  split_ifs at hv with h1 h2 h3 h4
  push_neg at h1 h2 h3
  simp only [singlePreparedWatermark, prepareOpacityRotation, resizeWatermark, rotateImage,
    getNewWatermarkWidth, amendedPreparedWatermark]
  have hwidth : ratTrunc ((baseImg.bounds.dx : ℚ) * (config.watermarkWidthPercent / 100))
      = ⌊(baseImg.bounds.dx : ℚ) * config.watermarkWidthPercent / 100⌋ := by
    rw [ratTrunc_eq_floor]
    · rw [mul_div_assoc]
    · apply mul_nonneg
      · exact_mod_cast hw
      · have := h2.1
        positivity
  have hopacity : (if config.opacityAlpha < 1 then (applyOpacity wm config.opacityAlpha).toGo else wm)
      = (if config.opacityAlpha = 1 then wm else (applyOpacity wm config.opacityAlpha).toGo) := by
    by_cases he : config.opacityAlpha = 1
    · simp [he]
    · have hlt : config.opacityAlpha < 1 := lt_of_le_of_ne h1.2 he
      simp [he, hlt]
  have hrot : ∀ img : GoImage,
      (if config.rotationDegrees ≠ 0 then I.rotate img config.rotationDegrees else img)
      = (if config.rotationDegrees = 0 then img else I.rotate img config.rotationDegrees) := by
    intro img
    by_cases hd : config.rotationDegrees = 0
    · simp [hd]
    · simp [hd]
  rw [hwidth, hopacity, hrot]

/-- Concrete instance of claim C1's amended theorem. -/
theorem pipeline_order_amended_witness :
    singlePreparedWatermark witImaging witBase witWM witGeneral
      = amendedPreparedWatermark witImaging witBase witWM witGeneral :=
  pipeline_order_amended witImaging witBase witWM witGeneral (by decide) (by decide)

/-! ## C5: grid tiling with zero spacing and offset -/

lemma ceilDiv_facts (W w : Nat) (hW : 0 < W) (hw : 0 < w) :
    0 < (W + w - 1) / w ∧ W ≤ ((W + w - 1) / w) * w ∧
      (∀ i : Nat, i < (W + w - 1) / w → i * w < W) := by
  have hS : W + w - 1 + 1 = W + w := by omega
  have h1 : ((W + w - 1) / w) * w ≤ W + w - 1 := Nat.div_mul_le_self _ _
  have h2 : W + w - 1 < ((W + w - 1) / w + 1) * w := by
    have hmod := Nat.div_add_mod (W + w - 1) w
    have hmlt := Nat.mod_lt (W + w - 1) hw
    have hexp : ((W + w - 1) / w + 1) * w = w * ((W + w - 1) / w) + w := by ring
    rw [hexp]
    omega
  have hc1 : 1 ≤ (W + w - 1) / w := by
    rw [Nat.le_div_iff_mul_le hw]
    omega
  have hWle : W ≤ ((W + w - 1) / w) * w := by
    have hexp : ((W + w - 1) / w + 1) * w = ((W + w - 1) / w) * w + w := by ring
    rw [hexp] at h2
    have := hS
    linarith
  refine ⟨hc1, hWle, ?_⟩
  intro i hi
  have hle : (i + 1) * w ≤ ((W + w - 1) / w) * w := Nat.mul_le_mul_right w (by omega)
  have hexp : (i + 1) * w = i * w + w := by ring
  rw [hexp] at hle
  have := hS
  linarith

lemma gridLoopX_pos (bound step : Int) (hstep : 0 < step) :
    ∀ (k fuel : Nat) (x : Int), k ≤ fuel →
      (∀ i : Nat, i < k → x + (i : Int) * step < bound) →
      (bound ≤ x + (k : Int) * step) →
      gridLoopX bound step fuel x = some ((List.range k).map (fun (i : Nat) => x + (i : Int) * step)) := by
  intro k
  induction k with
  | zero =>
    intro fuel x hk hin hout
    have hnx : ¬ (x < bound) := by push_cast at hout; omega
    cases fuel <;> simp [gridLoopX, hnx]
  | succ k ih =>
    intro fuel x hk hin hout
    have hx : x < bound := by
      have h0 := hin 0 (Nat.succ_pos k)
      push_cast at h0
      omega
    cases fuel with
    | zero => omega
    | succ n =>
      simp only [gridLoopX, if_pos hx]
      rw [ih n (x + step) (by omega) ?hin2 ?hout2]
      case hin2 =>
        intro i hi
        have h1 := hin (i + 1) (by omega)
        push_cast at h1 ⊢
        ring_nf at h1 ⊢
        linarith
      case hout2 =>
        push_cast at hout ⊢
        ring_nf at hout ⊢
        linarith
      simp only [Option.map_some']
      congr 1
      rw [List.range_succ_eq_map, List.map_cons, List.map_map]
      congr 1
      · push_cast
        ring
      · apply List.map_congr_left
        intro a ha2
        simp only [Function.comp_apply]
        push_cast
        ring

lemma gridLoopY_pos (boundX stepX offsetX boundY stepY : Int) (fuelX : Nat) (xs : List Int)
    (hxs : gridLoopX boundX stepX fuelX offsetX = some xs) :
    ∀ (k fuel : Nat) (y : Int), k ≤ fuel →
      (∀ j : Nat, j < k → y + (j : Int) * stepY < boundY) →
      (boundY ≤ y + (k : Int) * stepY) →
      gridLoopY boundX stepX offsetX boundY stepY fuelX fuel y
        = some ((List.range k).flatMap (fun (j : Nat) =>
            xs.map (fun x => Pt.mk x (y + (j : Int) * stepY)))) := by
  intro k
  induction k with
  | zero =>
    intro fuel y hk hin hout
    have hny : ¬ (y < boundY) := by push_cast at hout; omega
    cases fuel <;> simp [gridLoopY, hny]
  | succ k ih =>
    intro fuel y hk hin hout
    have hy : y < boundY := by
      have h0 := hin 0 (Nat.succ_pos k)
      push_cast at h0
      omega
    cases fuel with
    | zero => omega
    | succ n =>
      simp only [gridLoopY, if_pos hy, hxs, Option.some_bind]
      rw [ih n (y + stepY) (by omega) ?hin2 ?hout2]
      case hin2 =>
        intro j hj
        have h1 := hin (j + 1) (by omega)
        push_cast at h1 ⊢
        ring_nf at h1 ⊢
        linarith
      case hout2 =>
        push_cast at hout ⊢
        ring_nf at hout ⊢
        linarith
      simp only [Option.map_some']
      congr 1
      rw [List.range_succ_eq_map, List.flatMap_cons, List.flatMap_map]
      congr 1
      · apply List.map_congr_left
        intro x hx2
        congr 1
        push_cast
        ring
      · congr 1
        funext j
        congr 1
        funext x
        congr 1
        push_cast
        ring

/-- Claim C5: grid tiling with zero spacings and offsets on a W×H base
with a w×h watermark yields exactly `ceil(W/w) × ceil(H/h)` points (the
Nat expressions `(W+w-1)/w` and `(H+h-1)/h` below), in row-major order
(`(i*w, j*h)` with the row index `j` outermost), the first point at
`(0, 0)`. -/
theorem generateGridPositions_zero_spacing
    (g : GeneralConfig) (base wmimg : GoImage) (W H w h : Nat)
    (hbW : base.bounds.dx = W) (hbH : base.bounds.dy = H)
    (hwW : wmimg.bounds.dx = w) (hwH : wmimg.bounds.dy = h)
    (hW : 0 < W) (hH : 0 < H) (hw : 0 < w) (hh : 0 < h) :
    generateGridPositions base wmimg ⟨g, 0, 0, 0, 0⟩ (W + H + w + h)
      = some ((List.range ((H + h - 1) / h)).flatMap (fun (j : Nat) =>
          (List.range ((W + w - 1) / w)).map (fun (i : Nat) => Pt.mk ((i : Int) * w) ((j : Int) * h)))) ∧
    ((List.range ((H + h - 1) / h)).flatMap (fun (j : Nat) =>
        (List.range ((W + w - 1) / w)).map (fun (i : Nat) => Pt.mk ((i : Int) * w) ((j : Int) * h)))).length
      = ((W + w - 1) / w) * ((H + h - 1) / h) ∧
    ((List.range ((H + h - 1) / h)).flatMap (fun (j : Nat) =>
        (List.range ((W + w - 1) / w)).map (fun (i : Nat) => Pt.mk ((i : Int) * w) ((j : Int) * h)))).head?
      = some ⟨0, 0⟩ := by
  obtain ⟨hcX1, hcXW, hcXin⟩ := ceilDiv_facts W w hW hw
  obtain ⟨hcY1, hcYH, hcYin⟩ := ceilDiv_facts H h hH hh
  refine ⟨?_, ?_, ?_⟩
  · have hxs := gridLoopX_pos (W : Int) (w : Int) (by exact_mod_cast hw)
      ((W + w - 1) / w) (W + H + w + h) 0
      (by have := Nat.div_le_self (W + w - 1) w; omega)
      (by
        intro i hi
        rw [zero_add]
        exact_mod_cast hcXin i hi)
      (by
        rw [zero_add]
        exact_mod_cast hcXW)
    have hys := gridLoopY_pos (W : Int) (w : Int) 0 (H : Int) (h : Int) (W + H + w + h) _ hxs
      ((H + h - 1) / h) (W + H + w + h) 0
      (by have := Nat.div_le_self (H + h - 1) h; omega)
      (by
        intro j hj
        rw [zero_add]
        exact_mod_cast hcYin j hj)
      (by
        rw [zero_add]
        exact_mod_cast hcYH)
    have hcastX : ((W + w - 1 : Nat) : Int) = (W : Int) + (w : Int) - 1 := by omega
    have hcastY : ((H + h - 1 : Nat) : Int) = (H : Int) + (h : Int) - 1 := by omega
    have hcntX : Int.tdiv ((W : Int) - 0 + ((w : Int) + 0) - 1) ((w : Int) + 0)
        = (((W + w - 1) / w : Nat) : Int) := by
      rw [Int.ofNat_tdiv, hcastX]
      norm_num
    have hcntY : Int.tdiv ((H : Int) - 0 + ((h : Int) + 0) - 1) ((h : Int) + 0)
        = (((H + h - 1) / h : Nat) : Int) := by
      rw [Int.ofNat_tdiv, hcastY]
      norm_num
    simp only [generateGridPositions, hbW, hbH, hwW, hwH]
    rw [if_neg (by omega)]
    rw [hcntX, hcntY]
    rw [if_neg (by
      push_cast
      have hx : (0 : Int) < (((W + w - 1) / w : Nat) : Int) := by exact_mod_cast hcX1
      have hy : (0 : Int) < (((H + h - 1) / h : Nat) : Int) := by exact_mod_cast hcY1
      nlinarith)]
    have hsimp : ((w : Int) + 0) = (w : Int) := by ring
    have hsimp2 : ((h : Int) + 0) = (h : Int) := by ring
    rw [hsimp, hsimp2, hys]
    congr 1
    congr 1
    funext j
    rw [List.map_map]
    apply List.map_congr_left
    intro i hi2
    simp only [Function.comp_apply]
    congr 1
    · ring
    · ring
  · rw [List.length_flatMap]
    have hconst : (List.map (List.length ∘ fun (j : Nat) =>
        (List.range ((W + w - 1) / w)).map (fun (i : Nat) => Pt.mk ((i : Int) * w) ((j : Int) * h)))
          (List.range ((H + h - 1) / h)))
        = List.replicate ((H + h - 1) / h) ((W + w - 1) / w) := by
      rw [show (List.length ∘ fun (j : Nat) =>
          (List.range ((W + w - 1) / w)).map (fun (i : Nat) => Pt.mk ((i : Int) * w) ((j : Int) * h)))
          = Function.const Nat ((W + w - 1) / w) from funext fun j => by
            simp [List.length_map, List.length_range]]
      rw [List.map_const, List.length_range]
    rw [hconst, List.sum_replicate, smul_eq_mul, Nat.mul_comm]
  · obtain ⟨m, hm⟩ : ∃ m, (W + w - 1) / w = m + 1 := ⟨(W + w - 1) / w - 1, by omega⟩
    obtain ⟨k, hk⟩ : ∃ k, (H + h - 1) / h = k + 1 := ⟨(H + h - 1) / h - 1, by omega⟩
    rw [hm, hk, List.range_succ_eq_map, List.range_succ_eq_map]
    simp only [List.flatMap_cons, List.map_cons, List.cons_append, List.head?_cons]
    norm_num

/-- Concrete instance of claim C5's theorem: a 4×4 base and a 2×2
watermark, giving a 2×2 grid of points. -/
theorem generateGridPositions_zero_spacing_witness :
    generateGridPositions witBase witWM ⟨witGeneral, 0, 0, 0, 0⟩ (4 + 4 + 2 + 2)
      = some ((List.range ((4 + 2 - 1) / 2)).flatMap (fun (j : Nat) =>
          (List.range ((4 + 2 - 1) / 2)).map (fun (i : Nat) => Pt.mk ((i : Int) * 2) ((j : Int) * 2)))) ∧
    ((List.range ((4 + 2 - 1) / 2)).flatMap (fun (j : Nat) =>
        (List.range ((4 + 2 - 1) / 2)).map (fun (i : Nat) => Pt.mk ((i : Int) * 2) ((j : Int) * 2)))).length
      = ((4 + 2 - 1) / 2) * ((4 + 2 - 1) / 2) ∧
    ((List.range ((4 + 2 - 1) / 2)).flatMap (fun (j : Nat) =>
        (List.range ((4 + 2 - 1) / 2)).map (fun (i : Nat) => Pt.mk ((i : Int) * 2) ((j : Int) * 2)))).head?
      = some ⟨0, 0⟩ :=
  generateGridPositions_zero_spacing witGeneral witBase witWM 4 4 2 2
    (by decide) (by decide) (by decide) (by decide)
    (by decide) (by decide) (by decide) (by decide)

/-- Concrete instance of claim C3's theorem at a 10×10 base, 2×2
watermark, spacing 3, alignment value 7 for the unrecognized case. -/
theorem getWatermarkPosition_align_rules_witness :
    ((getWatermarkPosition gridBugWM gridBugBase 7 HorizontalLeft 3 (fun _ => 0)).x = 3) ∧
    ((getWatermarkPosition gridBugWM gridBugBase 7 HorizontalRight 3 (fun _ => 0)).x
      = gridBugBase.bounds.dx - gridBugWM.bounds.dx - 3) ∧
    ((getWatermarkPosition gridBugWM gridBugBase 7 HorizontalMiddle 3 (fun _ => 0)).x
      = Int.tdiv (gridBugBase.bounds.dx - gridBugWM.bounds.dx) 2) ∧
    ((7 : Int) ≠ HorizontalLeft → (7 : Int) ≠ HorizontalMiddle → (7 : Int) ≠ HorizontalRight →
      (7 : Int) ≠ HorizontalRandom →
      (getWatermarkPosition gridBugWM gridBugBase 7 7 3 (fun _ => 0)).x
        = Int.tdiv (gridBugBase.bounds.dx - gridBugWM.bounds.dx) 2) ∧
    ((getWatermarkPosition gridBugWM gridBugBase VerticalTop 7 3 (fun _ => 0)).y = 3) ∧
    ((getWatermarkPosition gridBugWM gridBugBase VerticalBottom 7 3 (fun _ => 0)).y
      = gridBugBase.bounds.dy - gridBugWM.bounds.dy - 3) ∧
    ((getWatermarkPosition gridBugWM gridBugBase VerticalMiddle 7 3 (fun _ => 0)).y
      = Int.tdiv (gridBugBase.bounds.dy - gridBugWM.bounds.dy) 2) ∧
    ((7 : Int) ≠ VerticalTop → (7 : Int) ≠ VerticalMiddle → (7 : Int) ≠ VerticalBottom →
      (7 : Int) ≠ VerticalRandom →
      (getWatermarkPosition gridBugWM gridBugBase 7 7 3 (fun _ => 0)).y
        = Int.tdiv (gridBugBase.bounds.dy - gridBugWM.bounds.dy) 2) :=
  getWatermarkPosition_align_rules gridBugWM gridBugBase 7 7 3 (fun _ => 0)

/-- Concrete instance of claim C8's theorem at concrete valid
configurations. -/
theorem validate_order_and_acceptance_witness :
    (witGeneral.validate = none ↔
      (0 < witGeneral.opacityAlpha ∧ witGeneral.opacityAlpha ≤ 1) ∧
      (0 < witGeneral.watermarkWidthPercent ∧ witGeneral.watermarkWidthPercent ≤ 100) ∧
      (0 ≤ witGeneral.rotationDegrees ∧ witGeneral.rotationDegrees ≤ 360) ∧
      0 ≤ witGeneral.maxWorkers) ∧
    (witGeneral.validate = some .opacity ↔
      ¬(0 < witGeneral.opacityAlpha ∧ witGeneral.opacityAlpha ≤ 1)) ∧
    (witGeneral.validate = some .widthPercent ↔
      (0 < witGeneral.opacityAlpha ∧ witGeneral.opacityAlpha ≤ 1) ∧
      ¬(0 < witGeneral.watermarkWidthPercent ∧ witGeneral.watermarkWidthPercent ≤ 100)) ∧
    (witGeneral.validate = some .rotationDeg ↔
      (0 < witGeneral.opacityAlpha ∧ witGeneral.opacityAlpha ≤ 1) ∧
      (0 < witGeneral.watermarkWidthPercent ∧ witGeneral.watermarkWidthPercent ≤ 100) ∧
      ¬(0 ≤ witGeneral.rotationDegrees ∧ witGeneral.rotationDegrees ≤ 360)) ∧
    (witGeneral.validate = some .maxWorkers ↔
      (0 < witGeneral.opacityAlpha ∧ witGeneral.opacityAlpha ≤ 1) ∧
      (0 < witGeneral.watermarkWidthPercent ∧ witGeneral.watermarkWidthPercent ≤ 100) ∧
      (0 ≤ witGeneral.rotationDegrees ∧ witGeneral.rotationDegrees ≤ 360) ∧
      witGeneral.maxWorkers < 0) ∧
    (witSingleConfig.validate = none ↔
      witSingleConfig.general.validate = none ∧ 0 ≤ witSingleConfig.spacing) ∧
    (witSingleConfig.validate = some .spacing ↔
      witSingleConfig.general.validate = none ∧ witSingleConfig.spacing < 0) ∧
    (∀ e : ConfigError, witSingleConfig.general.validate = some e →
      witSingleConfig.validate = some e) ∧
    (witGridConfig.validate = witGridConfig.general.validate) :=
  validate_order_and_acceptance witGeneral witSingleConfig witGridConfig
